import Mathlib

/-!
Verification of the CMP threshold-ECDSA library (taurusgroup/multi-party-sig wrapper).

The definitions below are a shallow embedding of the Go sources:
* the protocol handler (`MultiHandler` in the protocol package, found in
  `src/protocols/cmp/sign/round4.go` after the package separator),
* the round-framework session helper (`src/internal/round/helper.go`),
* the sign round 5 and the ECDSA signature type
  (`src/protocols/cmp/sign/round5.go`, `src/unnamed/part_007`),
* the secp256k1 marshalling (`src/unnamed/part_008`),
* the config derivation (`src/protocols/cmp/config/config.go`).

Go byte slices are modelled as `String` in the handler layer (only equality and
concatenation are used there) and as `List Nat` in the encoding layer.  Go maps
are modelled as association lists: a lookup of a missing key yields `none`,
which is Go's `nil`.  Fallible Go functions return `Except`; functions that can
also panic (slice indexing out of range) return `GoResult`.
-/

namespace MPS

abbrev PartyID := String

abbrev Bytes := String

/-- Message of the protocol package (struct `protocol.Message`).
Modelled from the spec: the Message struct itself is not under `src/`; the spec
gives its schema `{ssid, from, to, protocol, round_number, data, broadcast,
broadcast_verification}` and the handler code reads exactly these fields. -/
structure Msg where
  SSID : Bytes
  From : PartyID
  To : PartyID
  Protocol : String
  RoundNumber : Nat
  Data : Option Bytes
  Broadcast : Bool
  BroadcastVerification : Option Bytes
deriving Repr, DecidableEq

/-- Modelled from the spec: `Message.IsFor` is not under `src/`; the spec says
"the recipient matches self (or is empty)". -/
def Msg.isFor (m : Msg) (id : PartyID) : Bool :=
  m.To == "" || m.To == id

/-- Association-list lookup, the model of a Go map access (missing key: `none`). -/
def alookup {κ β : Type} [DecidableEq κ] : List (κ × β) → κ → Option β
  | [], _ => none
  | p :: rest, k => if p.1 = k then some p.2 else alookup rest k

/-- Association-list insert-or-update, the model of a Go map assignment
(the lists built here never carry a key twice). -/
def upsert {κ β : Type} [DecidableEq κ] : List (κ × β) → κ → β → List (κ × β)
  | [], k, v => [(k, v)]
  | p :: rest, k, v => if p.1 = k then (k, v) :: rest else p :: upsert rest k v

/-- Per-round queue row: sender ↦ queued message (`map[party.ID]*Message`;
a `nil` entry is `none`). -/
abbrev PartyMap := List (PartyID × Option Msg)

/-- Go `q[id]` on a `map[party.ID]*Message`: a missing key reads as `nil`. -/
def PartyMap.get (pm : PartyMap) (j : PartyID) : Option Msg :=
  match alookup pm j with
  | some v => v
  | none => none

def PartyMap.set (pm : PartyMap) (j : PartyID) (v : Msg) : PartyMap :=
  upsert pm j (some v)

/-- `map[round.Number]map[party.ID]*Message`. -/
abbrev Queue := List (Nat × PartyMap)

/-- Go `h.Messages[r]`: the whole row, `nil` when the round has no queue. -/
def Queue.row (q : Queue) (r : Nat) : Option PartyMap :=
  alookup q r

/-- Go `h.Messages[r][j]`: `nil` when the row is missing or the cell is `nil`. -/
def Queue.cell (q : Queue) (r : Nat) (j : PartyID) : Option Msg :=
  match q.row r with
  | some pm => pm.get j
  | none => none

/-- Go `h.Messages[r][j] = msg`.  The source would panic on a missing row; every
call site is guarded (`duplicate` returns true on a missing row before `store`
runs), so the missing-row case is modelled as a no-op. -/
def Queue.setCell : Queue → Nat → PartyID → Msg → Queue
  | [], _, _, _ => []
  | p :: rest, r, j, v =>
    if p.1 = r then (r, p.2.set j v) :: rest else p :: Queue.setCell rest r j v

/-- `newQueue` (protocol package): rows pre-allocated for rounds 2..rounds, every
sender mapped to `nil`. -/
def newQueue (senders : List PartyID) (rounds : Nat) : Queue :=
  (List.range' 2 (rounds - 1)).map (fun i => (i, senders.map (fun id => (id, (none : Option Msg)))))

/-- The immutable session data the handler reads from `round.Session`
(`src/internal/round/helper.go`): accessors `Number`, `SelfID`, `PartyIDs`,
`OtherPartyIDs`, `ProtocolID`, `SSID`, `FinalRoundNumber`.  `isBroadcastRound`
models the `round.BroadcastRound` type assertion and `expectsMessage` models
`MessageContent() != nil`.  `tag` stands for the abstract per-round state the
concrete rounds carry. -/
structure Session where
  number : Nat
  selfID : PartyID
  partyIDs : List PartyID
  otherPartyIDs : List PartyID
  protocolID : String
  ssid : Bytes
  finalRoundNumber : Nat
  isBroadcastRound : Bool
  expectsMessage : Bool
  tag : Nat
deriving Repr, DecidableEq

/-- `protocol.Error`, the error value the handler records.
Modelled from the spec: the struct is not under `src/`; the spec says errors are
"surfaced with a sender list" (culprits) and an error string. -/
structure PError where
  Culprits : List PartyID
  Err : String
deriving Repr, DecidableEq

/-- Modelled from the spec: `protocol.Error.Error()` is not under `src/`; the
spec says the abort message's data is "the error string". -/
def PError.errorString (e : PError) : String :=
  e.Err

/-- `protocol.MultiHandler`: the handler state. -/
structure Handler where
  CurrentRound : Session
  Rounds : List (Nat × Session)
  Err : Option PError
  ResultObj : Option String
  Messages : Queue
  Broadcast : Queue
  BroadcastHashes : List (Nat × Bytes)
  Out : List Msg
deriving Repr, DecidableEq

/-- `NewMultiHandler`, specialized to a created first round `s`. -/
def newMultiHandler (s : Session) : Handler :=
  { CurrentRound := s
    Rounds := [(s.number, s)]
    Err := none
    ResultObj := none
    Messages := newQueue s.otherPartyIDs s.finalRoundNumber
    Broadcast := newQueue s.otherPartyIDs s.finalRoundNumber
    BroadcastHashes := []
    Out := [] }

/-- `MultiHandler.CanAccept`. -/
def Handler.canAccept (h : Handler) (msg : Option Msg) : Bool :=
  match msg with
  | none => false
  | some m =>
    m.isFor h.CurrentRound.selfID &&
    m.Protocol == h.CurrentRound.protocolID &&
    m.SSID == h.CurrentRound.ssid &&
    h.CurrentRound.partyIDs.contains m.From &&
    m.Data.isSome &&
    !(decide (m.RoundNumber > h.CurrentRound.finalRoundNumber)) &&
    !(decide (m.RoundNumber < h.CurrentRound.number) && decide (m.RoundNumber > 0))

/-- `MultiHandler.duplicate`. -/
def Handler.duplicate (h : Handler) (m : Msg) : Bool :=
  if m.RoundNumber = 0 then false
  else
    let q := if m.Broadcast then h.Broadcast.row m.RoundNumber else h.Messages.row m.RoundNumber
    match q with
    | none => true
    | some pm => (pm.get m.From).isSome

/-- `MultiHandler.store` (the call sites always pass a non-nil message). -/
def Handler.store (h : Handler) (m : Msg) : Handler :=
  if m.Broadcast then { h with Broadcast := h.Broadcast.setCell m.RoundNumber m.From m }
  else { h with Messages := h.Messages.setCell m.RoundNumber m.From m }

/-- `MultiHandler.abort`: when the error is non-nil, record it and append the
terminal message `Message{SSID, From, Protocol, Data}` (all other fields are Go
zero values: `To=""`, `RoundNumber=0`, `Broadcast=false`,
`BroadcastVerification=nil`). -/
def Handler.abortMessage (h : Handler) (pe : PError) : Msg :=
  { SSID := h.CurrentRound.ssid
    From := h.CurrentRound.selfID
    To := ""
    Protocol := h.CurrentRound.protocolID
    RoundNumber := 0
    Data := some pe.errorString
    Broadcast := false
    BroadcastVerification := none }

def Handler.abortH (h : Handler) (err : Option String) (culprits : List PartyID) : Handler :=
  match err with
  | none => h
  | some e =>
    let pe : PError := ⟨culprits, e⟩
    { h with
      Err := some pe
      Out := h.Out ++ [h.abortMessage pe] }

/-- The dynamic behavior of the concrete rounds, the part the handler reaches
through the `round.Session` interface.  `storeBroadcast` stands for
`getRoundMessage` (CBOR decoding) followed by `StoreBroadcastMessage`;
`verifyStore` for `getRoundMessage` followed by `VerifyMessage` and
`StoreMessage`; both return the updated session (the source mutates the round in
place through a pointer) or the error the handler aborts with.  `computeBH` is
the echo-hash computation of `ReceivedAll` (the session transcript hash extended
with each stored broadcast's hash in sorted party order). -/
structure RoundBehavior where
  storeBroadcast : Session → Msg → Except String Session
  verifyStore : Session → Msg → Except String Session
  computeBH : Session → List Msg → Bytes

/-- `MultiHandler.verifyBroadcastMessage`. -/
def Handler.verifyBroadcastMessage (B : RoundBehavior) (h : Handler) (m : Msg) :
    Except String Handler :=
  match alookup h.Rounds m.RoundNumber with
  | none => .ok h
  | some s =>
    -- getRoundMessage: a broadcast message for a round that is not a
    -- BroadcastRound is an error
    if !s.isBroadcastRound then .error "got Broadcast message when none was expected"
    else
      match B.storeBroadcast s m with
      | .error e => .error e
      | .ok s' =>
        .ok { h with
              Rounds := upsert h.Rounds m.RoundNumber s'
              CurrentRound := if m.RoundNumber = h.CurrentRound.number then s' else h.CurrentRound }

/-- `MultiHandler.verifyMessage` (the handler-level one, for P2P messages). -/
def Handler.verifyMessage (B : RoundBehavior) (h : Handler) (m : Msg) :
    Except String Handler :=
  match alookup h.Rounds m.RoundNumber with
  | none => .ok h
  | some s =>
    -- exit if we don't yet have the Broadcast message
    if s.isBroadcastRound && !(h.Broadcast.cell m.RoundNumber m.From).isSome then .ok h
    else
      match B.verifyStore s m with
      | .error e => .error e
      | .ok s' =>
        .ok { h with
              Rounds := upsert h.Rounds m.RoundNumber s'
              CurrentRound := if m.RoundNumber = h.CurrentRound.number then s' else h.CurrentRound }

/-- `MultiHandler.Accept`.  The early exit tests `h.Err`, `h.ResultObj` and
`duplicate` only (the `CanAccept` test was removed in the source).  The P2P
error branch does not abort: `h.abort(err, msg.From)` is commented out. -/
def Handler.accept (B : RoundBehavior) (h : Handler) (m : Msg) : Handler :=
  if h.Err.isSome || h.ResultObj.isSome || h.duplicate m then h
  else if m.RoundNumber = 0 then
    h.abortH (some ("aborted by other party with error: \u0022" ++
      (m.Data.getD "") ++ "\u0022")) [m.From]
  else
    let h1 := h.store m
    if h1.CurrentRound.number ≠ m.RoundNumber then h1
    else if m.Broadcast then
      match h1.verifyBroadcastMessage B m with
      | .error e => h1.abortH (some e) [m.From]
      | .ok h2 => h2
    else
      match h1.verifyMessage B m with
      | .error _ => h1
      | .ok h2 => h2

/-- List of stored broadcast messages in `PartyIDs` order, fed to the echo-hash
computation (all entries are present when this is reached). -/
def broadcastList (pm : PartyMap) (ids : List PartyID) : List Msg :=
  ids.filterMap pm.get

/-- The normal-message half of `MultiHandler.ReceivedAll`. -/
def Handler.receivedAllNormal (h : Handler) : Bool :=
  if h.CurrentRound.expectsMessage then
    match h.Messages.row h.CurrentRound.number with
    | none => true
    | some pm => h.CurrentRound.otherPartyIDs.all (fun id => (pm.get id).isSome)
  else true

/-- `MultiHandler.ReceivedAll`.  Computing the echo hash mutates
`BroadcastHashes`, so the result is the updated handler together with the
boolean the source returns. -/
def Handler.receivedAll (B : RoundBehavior) (h : Handler) : Handler × Bool :=
  let s := h.CurrentRound
  if s.isBroadcastRound then
    match h.Broadcast.row s.number with
    | none => (h, true)
    | some pm =>
      if s.partyIDs.all (fun id => (pm.get id).isSome) then
        let h' :=
          if (alookup h.BroadcastHashes s.number).isSome then h
          else { h with BroadcastHashes :=
                  upsert h.BroadcastHashes s.number (B.computeBH s (broadcastList pm s.partyIDs)) }
        (h', h'.receivedAllNormal)
      else (h, false)
  else (h, h.receivedAllNormal)

/-- `bytes.Equal` between a possibly-nil slice and a non-nil one (a nil slice
equals the empty slice). -/
def bytesEqual (o : Option Bytes) (b : Bytes) : Bool :=
  o.getD "" == b

/-- `MultiHandler.checkBroadcastHash`. -/
def Handler.checkBroadcastHash (h : Handler) : Bool :=
  let number := h.CurrentRound.number
  match alookup h.BroadcastHashes (number - 1) with
  | none => true
  | some previousHash =>
    (match h.Messages.row number with
     | none => true
     | some pm => pm.all (fun kv =>
         match kv.2 with
         | none => true
         | some msg => bytesEqual msg.BroadcastVerification previousHash)) &&
    (match h.Broadcast.row number with
     | none => true
     | some pm => pm.all (fun kv =>
         match kv.2 with
         | none => true
         | some msg => bytesEqual msg.BroadcastVerification previousHash))

/-- `round.Message` as produced by a round's `Finalize`: destination, broadcast
flag, the content's own round number, and the content's CBOR bytes. -/
structure RoundMsg where
  To : PartyID
  Broadcast : Bool
  contentRound : Nat
  data : Bytes
deriving Repr, DecidableEq

/-- The four shapes `CurrentRound.Finalize(out)` can produce for the handler:
a next round with outgoing messages, a `round.Abort` session, a `round.Output`
session, or a non-nil error / nil session (`err` with `none` models the
nil-round-nil-error case). -/
inductive FinalizeResult where
  | next (s : Session) (out : List RoundMsg)
  | abortR (err : String) (culprits : List PartyID)
  | output (res : String)
  | err (e : Option String)
deriving Repr

/-- `MultiHandler.ProcessRound`, parameterized by the current round's `Finalize`
(`F`) and the round behavior (`B`).  Returns the updated handler and the
returned message list (`nil` is `[]`). -/
def Handler.processRound (F : Session → FinalizeResult) (B : RoundBehavior) (h : Handler) :
    Handler × List Msg :=
  match h.receivedAll B with
  | (h0, false) => (h0, [])
  | (h0, true) =>
    if !h0.checkBroadcastHash then (h0.abortH (some "Broadcast verification failed") [], [])
    else
      match F h0.CurrentRound with
      | .err e => (h0.abortH e [h0.CurrentRound.selfID], [])
      | .abortR e cs => (h0.abortH (some e) cs, [])
      | .output res => ({ h0 with ResultObj := some res }, [])
      | .next s' outs =>
        let h1 := { h0 with
                    Rounds := upsert h0.Rounds s'.number s'
                    CurrentRound := s'
                    Out := [] }
        let h2 := outs.foldl (fun acc rm =>
            let msg : Msg := { SSID := s'.ssid
                               From := s'.selfID
                               To := rm.To
                               Protocol := s'.protocolID
                               RoundNumber := rm.contentRound
                               Data := some rm.data
                               Broadcast := rm.Broadcast
                               BroadcastVerification := alookup acc.BroadcastHashes (s'.number - 1) }
            let acc1 := if msg.Broadcast then acc.store msg else acc
            { acc1 with Out := acc1.Out ++ [msg] }) h1
        (h2, h2.Out)

/-- `MultiHandler.Stop`. -/
def Handler.stop (h : Handler) : Handler :=
  if h.Err.isSome || h.ResultObj.isSome then
    h.abortH (some "aborted by user") [h.CurrentRound.selfID]
  else h

/-- The three outcomes of `MultiHandler.Result`. -/
inductive ResultOut where
  | ok (r : String)
  | errP (e : PError)
  | notFinished
deriving Repr, DecidableEq

/-- `MultiHandler.Result`. -/
def Handler.result (h : Handler) : ResultOut :=
  match h.ResultObj with
  | some r => .ok r
  | none =>
    match h.Err with
    | some e => .errP e
    | none => .notFinished

/-! ## Concrete fixtures used by witnesses and counterexamples -/

/-- A freshly created first round (sign round 1 shape: no broadcast, no
expected message). -/
def sessTest : Session :=
  { number := 1, selfID := "alice", partyIDs := ["alice", "bob"],
    otherPartyIDs := ["bob"], protocolID := "cmp/sign-test", ssid := "ssid1",
    finalRoundNumber := 5, isBroadcastRound := false, expectsMessage := false,
    tag := 1 }

/-- A round-2 session that expects only P2P messages. -/
def sessP2P : Session :=
  { number := 2, selfID := "alice", partyIDs := ["alice", "bob"],
    otherPartyIDs := ["bob"], protocolID := "cmp/sign-test", ssid := "ssid1",
    finalRoundNumber := 5, isBroadcastRound := false, expectsMessage := true,
    tag := 2 }

/-- A round-2 session that is a broadcast round. -/
def sessBC : Session :=
  { number := 2, selfID := "alice", partyIDs := ["alice", "bob"],
    otherPartyIDs := ["bob"], protocolID := "cmp/sign-test", ssid := "ssid1",
    finalRoundNumber := 5, isBroadcastRound := true, expectsMessage := false,
    tag := 2 }

/-- A round-2 session that neither broadcasts nor expects messages, so that
`ReceivedAll` holds vacuously. -/
def sessIdle2 : Session :=
  { number := 2, selfID := "alice", partyIDs := ["alice", "bob"],
    otherPartyIDs := ["bob"], protocolID := "cmp/sign-test", ssid := "ssid1",
    finalRoundNumber := 5, isBroadcastRound := false, expectsMessage := false,
    tag := 2 }

/-- A round-3 broadcast session. -/
def sessR3 : Session :=
  { number := 3, selfID := "alice", partyIDs := ["alice", "bob"],
    otherPartyIDs := ["bob"], protocolID := "cmp/sign-test", ssid := "ssid1",
    finalRoundNumber := 5, isBroadcastRound := true, expectsMessage := true,
    tag := 3 }

/-- Round behavior whose verification and storage always succeed. -/
def Btriv : RoundBehavior :=
  { storeBroadcast := fun s _ => .ok s
    verifyStore := fun s _ => .ok s
    computeBH := fun _ _ => "bh" }

/-- Round behavior whose P2P verification always fails (as a proof failure in
`VerifyMessage` does). -/
def Berr : RoundBehavior :=
  { storeBroadcast := fun s _ => .ok s
    verifyStore := fun _ _ => .error "failed to validate log proof"
    computeBH := fun _ _ => "bh" }

/-! ## Association-list and queue lemmas -/

theorem alookup_upsert_self {κ β : Type} [DecidableEq κ] (l : List (κ × β)) (k : κ) (v : β) :
    alookup (upsert l k v) k = some v := by
  induction l with
  | nil => simp [upsert, alookup]
  | cons p rest ih =>
    by_cases hpk : p.1 = k
    · simp [upsert, alookup, hpk]
    · simp [upsert, alookup, hpk, ih]

theorem alookup_upsert_ne {κ β : Type} [DecidableEq κ] (l : List (κ × β)) (k k' : κ) (v : β)
    (hne : k' ≠ k) : alookup (upsert l k v) k' = alookup l k' := by
  have hkk : k ≠ k' := fun hh => hne hh.symm
  induction l with
  | nil => simp [upsert, alookup, hkk]
  | cons p rest ih =>
    by_cases hpk : p.1 = k
    · have hpk' : p.1 ≠ k' := by rw [hpk]; exact hkk
      simp [upsert, alookup, hpk, hpk', hkk]
    · by_cases hpk' : p.1 = k'
      · simp [upsert, alookup, hpk, hpk', hne]
      · simp [upsert, alookup, hpk, hpk', ih]

theorem get_set_self (pm : PartyMap) (j : PartyID) (v : Msg) :
    (pm.set j v).get j = some v := by
  simp [PartyMap.set, PartyMap.get, alookup_upsert_self]

theorem get_set_ne (pm : PartyMap) (j j' : PartyID) (v : Msg) (hne : j ≠ j') :
    (pm.set j' v).get j = pm.get j := by
  simp [PartyMap.set, PartyMap.get, alookup_upsert_ne _ _ _ _ hne]

theorem row_setCell (q : Queue) (r' : Nat) (j' : PartyID) (v : Msg) (r : Nat) :
    (q.setCell r' j' v).row r =
      if r = r' then (q.row r).map (fun pm => pm.set j' v) else q.row r := by
  induction q with
  | nil => simp [Queue.setCell, Queue.row, alookup]
  | cons p rest ih =>
    by_cases hpr : p.1 = r'
    · by_cases hrr : r = r'
      · subst hrr
        simp [Queue.setCell, Queue.row, alookup, hpr]
      · have hp2 : p.1 ≠ r := by rw [hpr]; exact fun hh => hrr hh.symm
        have hr2 : r' ≠ r := fun hh => hrr hh.symm
        simp only [Queue.setCell, Queue.row, alookup, hpr, if_pos rfl, if_neg hr2, if_neg hp2,
          hrr, if_false]
    · by_cases hpr2 : p.1 = r
      · have hrr : ¬r = r' := fun hh => hpr (by rw [hpr2, hh])
        simp [Queue.setCell, Queue.row, alookup, hpr, hpr2, hrr]
      · simp only [Queue.setCell, Queue.row, alookup, if_neg hpr, if_neg hpr2]
        exact ih

theorem cell_setCell_preserved (q : Queue) (r' : Nat) (j' : PartyID) (v : Msg)
    (r : Nat) (j : PartyID) (m₀ : Msg)
    (hcell : q.cell r j = some m₀) (hne : ¬(r = r' ∧ j = j')) :
    (q.setCell r' j' v).cell r j = some m₀ := by
  unfold Queue.cell at *
  rw [row_setCell]
  by_cases hrr : r = r'
  · have hj : j ≠ j' := fun hj => hne ⟨hrr, hj⟩
    rw [if_pos hrr]
    cases hq : q.row r with
    | none => rw [hq] at hcell; simp at hcell
    | some pm =>
      rw [hq] at hcell
      show (pm.set j' v).get j = some m₀
      rw [get_set_ne pm j j' v hj]
      exact hcell
  · simp only [hrr, if_false]
    exact hcell

/-- A message accepted through `duplicate`'s guard never lands on an occupied
cell, so `store` keeps every occupied cell intact (`Accept` tests
`m.RoundNumber == 0` before it ever stores). -/
theorem cell_store_preserved (h : Handler) (m : Msg) (br : Bool) (r : Nat) (j : PartyID)
    (m₀ : Msg) (hdup : h.duplicate m = false) (h0 : m.RoundNumber ≠ 0)
    (hcell : (if br then h.Broadcast else h.Messages).cell r j = some m₀) :
    (if br then (h.store m).Broadcast else (h.store m).Messages).cell r j = some m₀ := by
  unfold Handler.duplicate at hdup
  rw [if_neg h0] at hdup
  unfold Handler.store
  cases hbr : m.Broadcast with
  | true =>
    rw [hbr] at hdup
    simp only [if_true] at hdup
    cases br with
    | false => simpa using hcell
    | true =>
      simp only [if_true] at hcell ⊢
      apply cell_setCell_preserved _ _ _ _ _ _ _ hcell
      rintro ⟨hr, hj⟩
      subst hr; subst hj
      unfold Queue.cell at hcell
      revert hcell
      cases hrow : h.Broadcast.row m.RoundNumber with
      | none => simp
      | some pm =>
        intro hcell
        have hc2 : pm.get m.From = some m₀ := hcell
        simp only [hrow] at hdup
        rw [hc2] at hdup
        simp at hdup
  | false =>
    rw [hbr] at hdup
    simp only [Bool.false_eq_true, if_false] at hdup
    cases br with
    | true => simpa using hcell
    | false =>
      simp only [Bool.false_eq_true, if_false] at hcell ⊢
      apply cell_setCell_preserved _ _ _ _ _ _ _ hcell
      rintro ⟨hr, hj⟩
      subst hr; subst hj
      unfold Queue.cell at hcell
      revert hcell
      cases hrow : h.Messages.row m.RoundNumber with
      | none => simp
      | some pm =>
        intro hcell
        have hc2 : pm.get m.From = some m₀ := hcell
        simp only [hrow] at hdup
        rw [hc2] at hdup
        simp at hdup

/-! ## Frame lemmas: which handler fields each operation can touch -/

theorem abortH_frame (h : Handler) (e : Option String) (cs : List PartyID) :
    (h.abortH e cs).CurrentRound = h.CurrentRound ∧
    (h.abortH e cs).Rounds = h.Rounds ∧
    (h.abortH e cs).Messages = h.Messages ∧
    (h.abortH e cs).Broadcast = h.Broadcast ∧
    (h.abortH e cs).BroadcastHashes = h.BroadcastHashes ∧
    (h.abortH e cs).ResultObj = h.ResultObj := by
  unfold Handler.abortH
  cases e <;> simp

theorem verifyBroadcastMessage_ok_frame (B : RoundBehavior) (h h2 : Handler) (m : Msg)
    (hok : h.verifyBroadcastMessage B m = .ok h2) :
    h2.Messages = h.Messages ∧ h2.Broadcast = h.Broadcast ∧ h2.Err = h.Err ∧
    h2.ResultObj = h.ResultObj ∧ h2.Out = h.Out ∧
    h2.BroadcastHashes = h.BroadcastHashes := by
  unfold Handler.verifyBroadcastMessage at hok
  split at hok
  · cases hok; exact ⟨rfl, rfl, rfl, rfl, rfl, rfl⟩
  · split at hok
    · cases hok
    · split at hok
      · cases hok
      · cases hok; exact ⟨rfl, rfl, rfl, rfl, rfl, rfl⟩

theorem verifyMessage_ok_frame (B : RoundBehavior) (h h2 : Handler) (m : Msg)
    (hok : h.verifyMessage B m = .ok h2) :
    h2.Messages = h.Messages ∧ h2.Broadcast = h.Broadcast ∧ h2.Err = h.Err ∧
    h2.ResultObj = h.ResultObj ∧ h2.Out = h.Out ∧
    h2.BroadcastHashes = h.BroadcastHashes := by
  unfold Handler.verifyMessage at hok
  split at hok
  · cases hok; exact ⟨rfl, rfl, rfl, rfl, rfl, rfl⟩
  · split at hok
    · cases hok; exact ⟨rfl, rfl, rfl, rfl, rfl, rfl⟩
    · split at hok
      · cases hok
      · cases hok; exact ⟨rfl, rfl, rfl, rfl, rfl, rfl⟩

theorem receivedAll_frame (B : RoundBehavior) (h : Handler) :
    (h.receivedAll B).1.CurrentRound = h.CurrentRound ∧
    (h.receivedAll B).1.Rounds = h.Rounds ∧
    (h.receivedAll B).1.Messages = h.Messages ∧
    (h.receivedAll B).1.Broadcast = h.Broadcast ∧
    (h.receivedAll B).1.Err = h.Err ∧
    (h.receivedAll B).1.ResultObj = h.ResultObj ∧
    (h.receivedAll B).1.Out = h.Out := by
  unfold Handler.receivedAll
  by_cases hbc : h.CurrentRound.isBroadcastRound = true
  · rw [if_pos hbc]
    cases hrow : h.Broadcast.row h.CurrentRound.number with
    | none => simp
    | some pm =>
      dsimp only
      by_cases hall :
          (h.CurrentRound.partyIDs.all fun id => (pm.get id).isSome) = true
      · rw [if_pos hall]
        by_cases hbh : (alookup h.BroadcastHashes h.CurrentRound.number).isSome = true
        · simp [hbh]
        · simp [hbh]
      · rw [if_neg hall]
        simp
  · rw [if_neg hbc]
    simp

theorem foldl_preserves {α β : Type} (f : β → α → β) (P : β → Prop)
    (hstep : ∀ b a, P b → P (f b a)) : ∀ (l : List α) (b : β), P b → P (l.foldl f b)
  | [], _, hb => hb
  | a :: rest, b, hb => foldl_preserves f P hstep rest (f b a) (hstep b a hb)

/-! ## C3: the CanAccept predicate -/

/-- The claim's version of `can_accept`, written from the spec's words:
recipient matches self (or empty), protocol id matches, SSID matches, sender in
party set, round number positive and at most the final round, content present. -/
def specCanAccept (h : Handler) (msg : Option Msg) : Bool :=
  match msg with
  | none => false
  | some m =>
    m.isFor h.CurrentRound.selfID &&
    m.Protocol == h.CurrentRound.protocolID &&
    m.SSID == h.CurrentRound.ssid &&
    h.CurrentRound.partyIDs.contains m.From &&
    decide (0 < m.RoundNumber) &&
    decide (m.RoundNumber ≤ h.CurrentRound.finalRoundNumber) &&
    m.Data.isSome

/-- An abort-style message (round number 0) passing every other check. -/
def msgRound0 : Msg :=
  { SSID := "ssid1", From := "bob", To := "", Protocol := "cmp/sign-test",
    RoundNumber := 0, Data := some "peer abort", Broadcast := false,
    BroadcastVerification := none }

/-- C3 counterexample: `CanAccept` returns true on a message whose round number
is 0, while the claimed characterization requires a positive round number, so
the claimed "if and only if" fails on this input. -/
theorem c3_counterexample :
    (newMultiHandler sessTest).canAccept (some msgRound0) = true ∧
    specCanAccept (newMultiHandler sessTest) (some msgRound0) = false ∧
    msgRound0.RoundNumber = 0 := by
  refine ⟨?_, ?_, rfl⟩ <;> rfl

/-- C3 amended: `CanAccept(msg)` returns true iff the recipient matches self or
is empty, the protocol id matches, the SSID matches, the sender is in the party
set, the content is present, the round number is at most the final round
number, and the round number is not that of an earlier round (positive and
below the current round number).  In particular round number 0 — a peer abort —
is accepted. -/
theorem c3_canAccept_characterization (h : Handler) (m : Msg) :
    h.canAccept (some m) = true ↔
      (m.isFor h.CurrentRound.selfID = true ∧
       m.Protocol = h.CurrentRound.protocolID ∧
       m.SSID = h.CurrentRound.ssid ∧
       h.CurrentRound.partyIDs.contains m.From = true ∧
       m.Data.isSome = true ∧
       m.RoundNumber ≤ h.CurrentRound.finalRoundNumber ∧
       ¬(0 < m.RoundNumber ∧ m.RoundNumber < h.CurrentRound.number)) := by
  show (_ && _ && _ && _ && _ && _ && _) = true ↔ _
  simp only [Bool.and_eq_true, beq_iff_eq, Bool.not_eq_true', Bool.and_eq_false_iff,
    decide_eq_false_iff_not, not_lt, decide_eq_true_eq]
  constructor
  · rintro ⟨⟨⟨⟨⟨⟨h1, h2⟩, h3⟩, h4⟩, h5⟩, h6⟩, h7⟩
    refine ⟨h1, h2, h3, h4, h5, h6, ?_⟩
    rintro ⟨hpos, hlt⟩
    rcases h7 with h7 | h7
    · omega
    · omega
  · rintro ⟨h1, h2, h3, h4, h5, h6, h7⟩
    refine ⟨⟨⟨⟨⟨⟨h1, h2⟩, h3⟩, h4⟩, h5⟩, h6⟩, ?_⟩
    by_cases hpos : 0 < m.RoundNumber
    · left
      by_contra hcur
      exact h7 ⟨hpos, by omega⟩
    · right; omega

/-! ## C10: messages for rounds without a queue -/

theorem alookup_range_map {β : Type} (g : Nat → β) (n : Nat) :
    ∀ (a k : Nat),
      (alookup ((List.range' a n).map (fun i => (i, g i))) k).isSome = true ↔
        (a ≤ k ∧ k < a + n) := by
  induction n with
  | zero => intro a k; simp [alookup]
  | succ n ih =>
    intro a k
    rw [List.range'_succ]
    simp only [List.map_cons, alookup]
    by_cases hak : a = k
    · simp [hak]
    · rw [if_neg hak, ih (a + 1) k]
      omega

/-- C10: the queues are pre-allocated exactly for rounds 2 through the final
round, and `Accept` treats any non-abort message whose round number has no
queue as a duplicate: it is discarded without verification, storage, or any
state change. -/
theorem c10_unqueued_round_messages_discarded :
    (∀ (senders : List PartyID) (rounds r : Nat),
        ((newQueue senders rounds).row r).isSome = true ↔ 2 ≤ r ∧ r ≤ rounds) ∧
    (∀ (B : RoundBehavior) (h : Handler) (m : Msg),
        h.Err = none → h.ResultObj = none → m.RoundNumber ≠ 0 →
        (if m.Broadcast then h.Broadcast else h.Messages).row m.RoundNumber = none →
        h.accept B m = h) := by
  constructor
  · intro senders rounds r
    unfold newQueue Queue.row
    rw [alookup_range_map (fun _ => senders.map (fun id => (id, (none : Option Msg)))) _ 2 r]
    omega
  · intro B h m hErr hRes h0 hrow
    have hdup : h.duplicate m = true := by
      unfold Handler.duplicate
      rw [if_neg h0]
      cases hb : m.Broadcast
      · rw [hb] at hrow
        simp only [Bool.false_eq_true, if_false] at hrow ⊢
        rw [hrow]
      · rw [hb] at hrow
        simp only [if_true] at hrow ⊢
        rw [hrow]
    unfold Handler.accept
    simp [hErr, hRes, hdup]

/-- A round-1 message, for which no queue exists. -/
def msgRn1 : Msg :=
  { SSID := "ssid1", From := "bob", To := "", Protocol := "cmp/sign-test",
    RoundNumber := 1, Data := some "d", Broadcast := false,
    BroadcastVerification := none }

theorem c10_witness :
    Handler.accept Btriv (newMultiHandler sessTest) msgRn1 = newMultiHandler sessTest :=
  c10_unqueued_round_messages_discarded.2 Btriv (newMultiHandler sessTest) msgRn1 rfl rfl
    (by decide) (by decide)

/-! ## C7: Stop on an idle handler -/

/-- C7: the source guards `Stop` with `h.Err != nil || h.ResultObj != nil`, so
on an idle handler (no result, no error) `Stop` changes nothing: no error is
recorded, no abort message is emitted, and `Result` still reports "not
finished" — contradicting the claim and the method's own doc comment. -/
theorem c7_stop_idle_noop (h : Handler) (hErr : h.Err = none) (hRes : h.ResultObj = none) :
    h.stop = h ∧ h.stop.result = .notFinished := by
  have hstop : h.stop = h := by
    unfold Handler.stop
    simp [hErr, hRes]
  refine ⟨hstop, ?_⟩
  rw [hstop]
  unfold Handler.result
  rw [hRes, hErr]

theorem c7_witness :
    Handler.stop (newMultiHandler sessTest) = newMultiHandler sessTest ∧
    (Handler.stop (newMultiHandler sessTest)).result = .notFinished :=
  c7_stop_idle_noop (newMultiHandler sessTest) rfl rfl

/-! ## C5: ProcessRound before ReceivedAll -/

/-- C5: when `ReceivedAll` is false, `ProcessRound` returns no outbound
messages, leaves the current round, the round map and the outbound queue
unchanged, and never invokes `Finalize` (the result does not depend on the
finalizer at all). -/
theorem c5_processRound_noop_before_receivedAll
    (F G : Session → FinalizeResult) (B : RoundBehavior) (h : Handler)
    (hna : (h.receivedAll B).2 = false) :
    (h.processRound F B).2 = [] ∧
    (h.processRound F B).1.CurrentRound = h.CurrentRound ∧
    (h.processRound F B).1.Rounds = h.Rounds ∧
    (h.processRound F B).1.Out = h.Out ∧
    h.processRound F B = h.processRound G B := by
  have hfr := receivedAll_frame B h
  cases hra : h.receivedAll B with
  | mk h0 b =>
    rw [hra] at hna
    simp only at hna
    subst hna
    rw [hra] at hfr
    unfold Handler.processRound
    rw [hra]
    exact ⟨rfl, hfr.1, hfr.2.1, hfr.2.2.2.2.2.2, rfl⟩

/-- A broadcast-round handler still missing a broadcast message. -/
def hWaiting : Handler := newMultiHandler sessBC

theorem c5_witness :
    ((hWaiting.processRound (fun _ => .err none) Btriv).2 = [] ∧
     (hWaiting.processRound (fun _ => .err none) Btriv).1.CurrentRound = hWaiting.CurrentRound ∧
     (hWaiting.processRound (fun _ => .err none) Btriv).1.Rounds = hWaiting.Rounds ∧
     (hWaiting.processRound (fun _ => .err none) Btriv).1.Out = hWaiting.Out ∧
     hWaiting.processRound (fun _ => .err none) Btriv =
       hWaiting.processRound (fun _ => .output "sig") Btriv) :=
  c5_processRound_noop_before_receivedAll (fun _ => .err none) (fun _ => .output "sig")
    Btriv hWaiting (by decide)

theorem store_frame (h : Handler) (m : Msg) :
    (h.store m).CurrentRound = h.CurrentRound ∧
    (h.store m).Rounds = h.Rounds ∧
    (h.store m).Err = h.Err ∧
    (h.store m).ResultObj = h.ResultObj ∧
    (h.store m).BroadcastHashes = h.BroadcastHashes ∧
    (h.store m).Out = h.Out := by
  unfold Handler.store
  split <;> simp

theorem abortMessage_store (h : Handler) (m : Msg) (pe : PError) :
    (h.store m).abortMessage pe = h.abortMessage pe := by
  unfold Handler.abortMessage Handler.store
  split <;> simp

/-! ## C4: propagation of verification and finalization errors -/

/-- A current-round P2P message for `sessP2P`. -/
def mP2P : Msg :=
  { SSID := "ssid1", From := "bob", To := "alice", Protocol := "cmp/sign-test",
    RoundNumber := 2, Data := some "d", Broadcast := false,
    BroadcastVerification := none }

/-- C4 counterexample: a current-round P2P message whose round verification
fails is silently swallowed by `Accept` — the abort call in the P2P branch is
commented out in the source — so no error is recorded and no abort message is
emitted, while the claim requires both. -/
theorem c4_counterexample :
    Handler.verifyMessage Berr ((newMultiHandler sessP2P).store mP2P) mP2P =
      .error "failed to validate log proof" ∧
    Handler.accept Berr (newMultiHandler sessP2P) mP2P = (newMultiHandler sessP2P).store mP2P ∧
    (Handler.accept Berr (newMultiHandler sessP2P) mP2P).Err = none ∧
    (Handler.accept Berr (newMultiHandler sessP2P) mP2P).Out = [] := by
  refine ⟨?_, ?_, ?_, ?_⟩ <;> rfl

/-- C4 amended: a non-content error from the broadcast store path of `Accept`,
or from `Finalize` inside `ProcessRound`, is recorded and appends an abort
message with round number 0 whose data is the error string; but an error from
`verify_message`/`store_message` on a current-round P2P message inside `Accept`
is silently dropped: the handler keeps no error and emits nothing. -/
theorem c4_error_propagation :
    (∀ (B : RoundBehavior) (h : Handler) (m : Msg) (e : String),
        h.Err = none → h.ResultObj = none → h.duplicate m = false →
        m.RoundNumber ≠ 0 → h.CurrentRound.number = m.RoundNumber → m.Broadcast = true →
        (h.store m).verifyBroadcastMessage B m = .error e →
        (h.accept B m).Err = some ⟨[m.From], e⟩ ∧
        (h.accept B m).Out = h.Out ++ [h.abortMessage ⟨[m.From], e⟩]) ∧
    (∀ (F : Session → FinalizeResult) (B : RoundBehavior) (h h0 : Handler) (e : String),
        h.receivedAll B = (h0, true) → h0.checkBroadcastHash = true →
        F h0.CurrentRound = .err (some e) →
        (h.processRound F B).1.Err = some ⟨[h0.CurrentRound.selfID], e⟩ ∧
        (h.processRound F B).1.Out = h0.Out ++ [h0.abortMessage ⟨[h0.CurrentRound.selfID], e⟩] ∧
        (h.processRound F B).2 = []) ∧
    (∀ (B : RoundBehavior) (h : Handler) (m : Msg) (e : String),
        h.Err = none → h.ResultObj = none → h.duplicate m = false →
        m.RoundNumber ≠ 0 → h.CurrentRound.number = m.RoundNumber → m.Broadcast = false →
        (h.store m).verifyMessage B m = .error e →
        h.accept B m = h.store m ∧ (h.accept B m).Err = none ∧
        (h.accept B m).Out = h.Out) := by
  refine ⟨?_, ?_, ?_⟩
  · intro B h m e hErr hRes hdup h0 hcur hbc hvb
    unfold Handler.accept
    rw [hErr, hRes, hdup]
    simp only [Option.isSome_none, Bool.false_or, Bool.or_false, Bool.false_eq_true, if_false,
      if_neg h0]
    have hcr : (h.store m).CurrentRound = h.CurrentRound := (store_frame h m).1
    rw [if_neg (by rw [hcr, hcur]; exact fun hh => hh rfl)]
    rw [if_pos hbc, hvb]
    unfold Handler.abortH
    constructor
    · rfl
    · show (h.store m).Out ++ [(h.store m).abortMessage ⟨[m.From], e⟩] = _
      rw [(store_frame h m).2.2.2.2.2, abortMessage_store]
  · intro F B h h0 e hra hcbh hF
    unfold Handler.processRound
    rw [hra]
    dsimp only
    rw [hcbh]
    simp only [Bool.not_true]
    rw [if_neg Bool.false_ne_true, hF]
    unfold Handler.abortH
    exact ⟨rfl, rfl, rfl⟩
  · intro B h m e hErr hRes hdup h0 hcur hbc hvm
    unfold Handler.accept
    rw [hErr, hRes, hdup]
    simp only [Option.isSome_none, Bool.false_or, Bool.or_false, Bool.false_eq_true, if_false,
      if_neg h0]
    have hcr : (h.store m).CurrentRound = h.CurrentRound := (store_frame h m).1
    rw [if_neg (by rw [hcr, hcur]; exact fun hh => hh rfl)]
    rw [if_neg (by rw [hbc]; exact Bool.false_ne_true), hvm]
    exact ⟨rfl, (store_frame h m).2.2.1 ▸ hErr, (store_frame h m).2.2.2.2.2⟩

/-- Round behavior whose broadcast storage fails (as a failed decommitment
does). -/
def BerrBC : RoundBehavior :=
  { storeBroadcast := fun _ _ => .error "decommitment failed"
    verifyStore := fun s _ => .ok s
    computeBH := fun _ _ => "bh" }

/-- A current-round broadcast message for `sessBC`. -/
def mBC : Msg :=
  { SSID := "ssid1", From := "bob", To := "", Protocol := "cmp/sign-test",
    RoundNumber := 2, Data := some "d", Broadcast := true,
    BroadcastVerification := none }

theorem c4_witness :
    ((Handler.accept BerrBC (newMultiHandler sessBC) mBC).Err =
        some ⟨["bob"], "decommitment failed"⟩ ∧
      (Handler.accept BerrBC (newMultiHandler sessBC) mBC).Out =
        [] ++ [(newMultiHandler sessBC).abortMessage ⟨["bob"], "decommitment failed"⟩]) ∧
    ((Handler.processRound (fun _ => .err (some "sampling failed")) Btriv
          (newMultiHandler sessIdle2)).1.Err =
        some ⟨["alice"], "sampling failed"⟩ ∧
      (Handler.processRound (fun _ => .err (some "sampling failed")) Btriv
          (newMultiHandler sessIdle2)).1.Out =
        [] ++ [(newMultiHandler sessIdle2).abortMessage ⟨["alice"], "sampling failed"⟩] ∧
      (Handler.processRound (fun _ => .err (some "sampling failed")) Btriv
          (newMultiHandler sessIdle2)).2 = []) ∧
    (Handler.accept Berr (newMultiHandler sessP2P) mP2P = (newMultiHandler sessP2P).store mP2P ∧
      (Handler.accept Berr (newMultiHandler sessP2P) mP2P).Err = none ∧
      (Handler.accept Berr (newMultiHandler sessP2P) mP2P).Out = []) :=
  ⟨c4_error_propagation.1 BerrBC (newMultiHandler sessBC) mBC "decommitment failed"
      rfl rfl (by decide) (by decide) (by decide) rfl rfl,
   c4_error_propagation.2.1 (fun _ => .err (some "sampling failed")) Btriv
      (newMultiHandler sessIdle2) (newMultiHandler sessIdle2) "sampling failed"
      rfl (by decide) rfl,
   c4_error_propagation.2.2 Berr (newMultiHandler sessP2P) mP2P "failed to validate log proof"
      rfl rfl (by decide) (by decide) (by decide) rfl rfl⟩

/-! ## C6: queue cells are written at most once -/

/-- A broadcast forged as coming from self, for the future round 3. -/
def mForged : Msg :=
  { SSID := "ssid1", From := "alice", To := "", Protocol := "cmp/sign-test",
    RoundNumber := 3, Data := some "forged", Broadcast := true,
    BroadcastVerification := none }

/-- A finalizer moving `sessIdle2` to round 3 with one outgoing broadcast, as
sign round 2's `Finalize` does. -/
def Fnext : Session → FinalizeResult :=
  fun _ => .next sessR3 [{ To := "", Broadcast := true, contentRound := 3, data := "real" }]

/-- C6 counterexample: accept a broadcast forged as coming from self for round
3 while in round 2, then run `ProcessRound`; its unguarded self-store
overwrites the occupied cell `Broadcast[3][self]` with the round's own
outgoing broadcast. -/
theorem c6_counterexample :
    ((newMultiHandler sessIdle2).accept Btriv mForged).Broadcast.cell 3 "alice" =
      some mForged ∧
    (Handler.processRound Fnext Btriv
        ((newMultiHandler sessIdle2).accept Btriv mForged)).1.Broadcast.cell 3 "alice" ≠
      some mForged := by
  constructor
  · rfl
  · decide

/-- Queues after `Accept`: either untouched, or exactly those of `store`
(which `duplicate` guards). -/
theorem accept_queues (B : RoundBehavior) (h : Handler) (m : Msg) :
    ((h.accept B m).Broadcast = h.Broadcast ∧ (h.accept B m).Messages = h.Messages) ∨
    (h.duplicate m = false ∧ m.RoundNumber ≠ 0 ∧
     (h.accept B m).Broadcast = (h.store m).Broadcast ∧
     (h.accept B m).Messages = (h.store m).Messages) := by
  unfold Handler.accept
  by_cases hguard : (h.Err.isSome || h.ResultObj.isSome || h.duplicate m) = true
  · rw [if_pos hguard]; left; exact ⟨rfl, rfl⟩
  · rw [if_neg hguard]
    have hdup : h.duplicate m = false := by
      simp only [Bool.or_eq_true, not_or, Bool.not_eq_true] at hguard
      exact hguard.2
    by_cases h0 : m.RoundNumber = 0
    · rw [if_pos h0]
      left
      exact ⟨(abortH_frame h _ _).2.2.2.1, (abortH_frame h _ _).2.2.1⟩
    · rw [if_neg h0]
      right
      refine ⟨hdup, h0, ?_⟩
      by_cases hcur : (h.store m).CurrentRound.number ≠ m.RoundNumber
      · rw [if_pos hcur]; exact ⟨rfl, rfl⟩
      · rw [if_neg hcur]
        by_cases hbc : m.Broadcast = true
        · rw [if_pos hbc]
          cases hv : Handler.verifyBroadcastMessage B (h.store m) m with
          | error e =>
            exact ⟨(abortH_frame (h.store m) _ _).2.2.2.1, (abortH_frame (h.store m) _ _).2.2.1⟩
          | ok h2 =>
            have hfr := verifyBroadcastMessage_ok_frame B (h.store m) h2 m hv
            exact ⟨hfr.2.1, hfr.1⟩
        · rw [if_neg hbc]
          cases hv : Handler.verifyMessage B (h.store m) m with
          | error e => exact ⟨rfl, rfl⟩
          | ok h2 =>
            have hfr := verifyMessage_ok_frame B (h.store m) h2 m hv
            exact ⟨hfr.2.1, hfr.1⟩

/-- Cell preservation through `ProcessRound` for every cell its self-store
cannot touch. -/
theorem processRound_cell_preserved (F : Session → FinalizeResult) (B : RoundBehavior)
    (h : Handler) (br : Bool) (r : Nat) (j : PartyID) (m₀ : Msg)
    (hF : ∀ s' out, F h.CurrentRound = .next s' out → s'.selfID = h.CurrentRound.selfID)
    (hj : br = false ∨ j ≠ h.CurrentRound.selfID)
    (hcell : (if br then h.Broadcast else h.Messages).cell r j = some m₀) :
    (if br then (h.processRound F B).1.Broadcast
     else (h.processRound F B).1.Messages).cell r j = some m₀ := by
  have hfr := receivedAll_frame B h
  unfold Handler.processRound
  cases hra : h.receivedAll B with
  | mk h0 b =>
    rw [hra] at hfr
    have hMsgs : h0.Messages = h.Messages := hfr.2.2.1
    have hBr : h0.Broadcast = h.Broadcast := hfr.2.2.2.1
    have hCur : h0.CurrentRound = h.CurrentRound := hfr.1
    have hq0 : (if br then h0.Broadcast else h0.Messages).cell r j = some m₀ := by
      cases br
      · rw [if_neg Bool.false_ne_true] at hcell ⊢
        rw [hMsgs]; exact hcell
      · rw [if_pos rfl] at hcell ⊢
        rw [hBr]; exact hcell
    dsimp only
    cases b with
    | false => exact hq0
    | true =>
      cases hcbh : h0.checkBroadcastHash with
      | false =>
        simp only [hcbh, Bool.not_false, if_true]
        cases br
        · simpa [(abortH_frame h0 _ _).2.2.1] using hq0
        · simpa [(abortH_frame h0 _ _).2.2.2.1] using hq0
      | true =>
        simp only [hcbh, Bool.not_true]
        rw [if_neg Bool.false_ne_true]
        cases hFv : F h0.CurrentRound with
        | err e =>
          cases br
          · simpa [(abortH_frame h0 _ _).2.2.1] using hq0
          · simpa [(abortH_frame h0 _ _).2.2.2.1] using hq0
        | abortR e cs =>
          cases br
          · simpa [(abortH_frame h0 _ _).2.2.1] using hq0
          · simpa [(abortH_frame h0 _ _).2.2.2.1] using hq0
        | output res => exact hq0
        | next s' outs =>
          dsimp only
          have hself : s'.selfID = h.CurrentRound.selfID := by
            rw [hCur] at hFv
            exact hF s' outs hFv
          refine foldl_preserves _
            (fun acc : Handler => (if br then acc.Broadcast else acc.Messages).cell r j = some m₀)
            ?_ outs _ hq0
          intro acc rm hacc
          dsimp only
          cases hrb : rm.Broadcast with
          | false =>
            simp only [hrb, Bool.false_eq_true, if_false]
            exact hacc
          | true =>
            simp only [hrb, if_true]
            unfold Handler.store
            simp only [if_true]
            cases br with
            | false => simpa using hacc
            | true =>
              simp only [if_true] at hacc ⊢
              apply cell_setCell_preserved _ _ _ _ _ _ _ hacc
              rintro ⟨_, hjj⟩
              rcases hj with hj | hj
              · cases hj
              · exact hj (by rw [hjj, hself])

/-- C6 amended: a cell that already holds a message is never overwritten by
`Accept` (the `duplicate` guard); `ProcessRound` writes only the broadcast
cells of its own outgoing messages — sender self, the newly entered round — so
every P2P cell and every cell of another sender is preserved.  Only the
self-broadcast cell of the round being entered can be overwritten, and only
when a message forged as coming from self was accepted for that future round
beforehand. -/
theorem c6_queue_single_write :
    (∀ (B : RoundBehavior) (h : Handler) (m : Msg) (br : Bool) (r : Nat) (j : PartyID)
        (m₀ : Msg),
        (if br then h.Broadcast else h.Messages).cell r j = some m₀ →
        (if br then (h.accept B m).Broadcast
         else (h.accept B m).Messages).cell r j = some m₀) ∧
    (∀ (F : Session → FinalizeResult) (B : RoundBehavior) (h : Handler) (br : Bool)
        (r : Nat) (j : PartyID) (m₀ : Msg),
        (∀ s' out, F h.CurrentRound = .next s' out → s'.selfID = h.CurrentRound.selfID) →
        (br = false ∨ j ≠ h.CurrentRound.selfID) →
        (if br then h.Broadcast else h.Messages).cell r j = some m₀ →
        (if br then (h.processRound F B).1.Broadcast
         else (h.processRound F B).1.Messages).cell r j = some m₀) := by
  constructor
  · intro B h m br r j m₀ hcell
    rcases accept_queues B h m with ⟨hb, hm⟩ | ⟨hdup, h0, hb, hm⟩
    · cases br
      · simpa [hm] using hcell
      · simpa [hb] using hcell
    · have hst := cell_store_preserved h m br r j m₀ hdup h0 hcell
      cases br
      · simpa [hm] using hst
      · simpa [hb] using hst
  · exact processRound_cell_preserved

/-- A handler whose round-2 P2P cell for "bob" is already occupied. -/
def hOccupied : Handler :=
  (newMultiHandler sessIdle2).store mP2P

theorem c6_witness :
    ((if false then (hOccupied.accept Btriv mP2P).Broadcast
      else (hOccupied.accept Btriv mP2P).Messages).cell 2 "bob" = some mP2P) ∧
    ((if false then (hOccupied.processRound Fnext Btriv).1.Broadcast
      else (hOccupied.processRound Fnext Btriv).1.Messages).cell 2 "bob" = some mP2P) :=
  ⟨c6_queue_single_write.1 Btriv hOccupied mP2P false 2 "bob" mP2P (by decide),
   c6_queue_single_write.2 Fnext Btriv hOccupied false 2 "bob" mP2P
     (fun s' out hh => by cases hh; rfl) (Or.inl rfl) (by decide)⟩

/-! ## C8: NewSession validation (src/internal/round/helper.go) -/

/-- `round.Info` (the fields `NewSession` reads; the curve is irrelevant to the
validation logic). -/
structure Info where
  ProtocolID : String
  FinalRoundNumber : Nat
  SelfID : PartyID
  PartyIDs : List PartyID
  Threshold : Int
deriving Repr, DecidableEq

/-- Modelled from the spec: `party.IDSlice.Valid` is not under `src/`; the spec
says "Party set is sorted, unique", so validity is strict sortedness. -/
def validIDSlice : List PartyID → Bool
  | [] => true
  | [_] => true
  | a :: b :: rest => decide (a < b) && validIDSlice (b :: rest)

/-- The data `NewSession` builds on success.  The transcript-hash material
(`Ssid`, `HashData`) is omitted: modelled from the spec, the §4.1 transcript
writes never fail, so they cannot influence success.  `OtherPartyIDsSlice` is
`party.IDSlice.Remove` (not under `src/`), modelled as erasing self. -/
structure RHelper where
  HInfo : Info
  PartyIDsSlice : List PartyID
  OtherPartyIDsSlice : List PartyID
deriving Repr, DecidableEq

/-- `round.NewSession`.  `party.NewIDSlice` is not under `src/`; modelled from
the spec, which provides the party list directly as the session's party set. -/
def NewSession (info : Info) : Except String RHelper :=
  let partyIDsSlice := info.PartyIDs
  if !validIDSlice partyIDsSlice then
    .error "session: PartyIDsSlice invalid"
  else if !partyIDsSlice.contains info.SelfID then
    .error "session: selfID not included in PartyIDsSlice"
  else if decide (info.Threshold < 0) || decide (info.Threshold > 4294967295) then
    .error "session: threshold is invalid"
  else if partyIDsSlice.length = 0 ∨
      decide ((partyIDsSlice.length : Int) - 1 < info.Threshold) then
    .error "session: threshold is invalid for number of parties"
  else
    .ok { HInfo := info
          PartyIDsSlice := partyIDsSlice
          OtherPartyIDsSlice := partyIDsSlice.erase info.SelfID }

def exceptOk {ε α : Type} : Except ε α → Bool
  | .ok _ => true
  | .error _ => false

/-- A single-party session request. -/
def singleInfo : Info :=
  { ProtocolID := "cmp/keygen-threshold-ecdsa", FinalRoundNumber := 5,
    SelfID := "alice", PartyIDs := ["alice"], Threshold := 0 }

/-- C8 counterexample: the source checks `n <= 0`, not `n < 2`, so a session
with a single party (n = 1, t = 0) is created successfully, while the claim
requires n ≥ 2. -/
theorem c8_counterexample :
    exceptOk (NewSession singleInfo) = true ∧ singleInfo.PartyIDs.length = 1 := by
  constructor <;> rfl

/-- C8 amended: `NewSession` succeeds iff the party list is sorted and
duplicate-free, contains the self id, and the threshold satisfies
0 ≤ t ≤ 2^32 − 1 and t ≤ n − 1 with n ≥ 1 — a single-party session with t = 0
is accepted. -/
theorem c8_newSession_characterization (info : Info) :
    exceptOk (NewSession info) = true ↔
      (validIDSlice info.PartyIDs = true ∧
       info.PartyIDs.contains info.SelfID = true ∧
       0 ≤ info.Threshold ∧ info.Threshold ≤ 4294967295 ∧
       1 ≤ info.PartyIDs.length ∧
       info.Threshold ≤ (info.PartyIDs.length : Int) - 1) := by
  unfold NewSession
  simp only [Bool.not_eq_true']
  split_ifs with h1 h2 h3 h4
  · simp only [exceptOk, Bool.false_eq_true, false_iff, not_and]
    intro hv
    rw [hv] at h1
    cases h1
  · simp only [exceptOk, Bool.false_eq_true, false_iff, not_and]
    intro _ hc
    rw [hc] at h2
    cases h2
  · simp only [exceptOk, Bool.false_eq_true, false_iff, not_and]
    intro _ _ h0le hle
    simp only [Bool.or_eq_true, decide_eq_true_eq] at h3
    rcases h3 with h3 | h3 <;> omega
  · simp only [exceptOk, Bool.false_eq_true, false_iff, not_and]
    intro _ _ _ _ hn ht
    rcases h4 with h4 | h4
    · omega
    · simp only [decide_eq_true_eq] at h4
      omega
  · simp only [exceptOk, true_iff]
    simp only [Bool.not_eq_false] at h1 h2
    simp only [Bool.or_eq_true, decide_eq_true_eq, not_or, not_lt] at h3
    simp only [decide_eq_true_eq, not_or, not_lt] at h4
    exact ⟨h1, h2, h3.1, h3.2, by omega, by omega⟩

/-! ## C1: sign round 5 never outputs a signature failing Verify

The sign rounds are generic over `curve.Curve`; the curve operations reached
through the interface (`src/unnamed/part_008` delegates to the external dcrd
library) are abstracted as a `CurveOps` record, exactly the operations
`Signature.Verify` and `Sround5.Finalize` call. -/

structure CurveOps (Sc Pt : Type) where
  zero : Sc
  add : Sc → Sc → Sc
  isZero : Sc → Bool
  invert : Sc → Sc
  fromHash : Bytes → Sc
  actOnBase : Sc → Pt
  act : Sc → Pt → Pt
  addP : Pt → Pt → Pt
  xScalar : Pt → Sc
  equalP : Pt → Pt → Bool

/-- `ecdsa.Signature` (src/unnamed/part_007). -/
structure Signature (Sc Pt : Type) where
  R : Pt
  S : Sc

/-- `Signature.Verify` (src/unnamed/part_007): r = R.x as scalar; reject zero r
or s; then test s⁻¹·(H(m)·G + r·X) = R. -/
def Signature.Verify {Sc Pt : Type} (G : CurveOps Sc Pt) (sig : Signature Sc Pt)
    (X : Pt) (hash : Bytes) : Bool :=
  let r := G.xScalar sig.R
  if G.isZero r || G.isZero sig.S then false
  else
    let m := G.fromHash hash
    let sInv := G.invert sig.S
    let mG := G.actOnBase m
    let rX := G.act r X
    let R2 := G.act sInv (G.addP mG rX)
    G.equalP R2 sig.R

/-- The state sign round 5 reads: the signer list, the stored σ shares (present
for every signer once `ReceivedAll` held), R, and the public key and message
hash inherited from round 1. -/
structure Sround5 (Sc Pt : Type) where
  partyIDs : List PartyID
  SigmaShares : PartyID → Sc
  BigR : Pt
  PublicKey : Pt
  Message : Bytes

/-- The two sessions `Sround5.Finalize` can return: `ResultRound(signature)` or
`AbortRound(err)`. -/
inductive Round5Session (Sc Pt : Type) where
  | output (sig : Signature Sc Pt)
  | abortR (err : String)

/-- `Sround5.Finalize` (src/protocols/cmp/sign/round5.go): σ = Σⱼ σⱼ, build
`Signature{R, σ}`, abort unless it verifies against the public key and the
message. -/
def Sround5.Finalize {Sc Pt : Type} (G : CurveOps Sc Pt) (r : Sround5 Sc Pt) :
    Round5Session Sc Pt :=
  let Sigma := r.partyIDs.foldl (fun acc j => G.add acc (r.SigmaShares j)) G.zero
  let signature : Signature Sc Pt := { R := r.BigR, S := Sigma }
  if !(signature.Verify G r.PublicKey r.Message) then
    .abortR "failed to validate signature"
  else
    .output signature

/-- C1: whenever sign round 5's `Finalize` returns the `Output` result round,
the emitted signature satisfies `Signature.Verify` against the configuration's
public point and the message hash — for every curve implementation. -/
theorem c1_round5_output_verifies {Sc Pt : Type} (G : CurveOps Sc Pt)
    (r : Sround5 Sc Pt) (sig : Signature Sc Pt)
    (hout : r.Finalize G = .output sig) :
    sig.Verify G r.PublicKey r.Message = true := by
  unfold Sround5.Finalize at hout
  dsimp only at hout
  cases hv : Signature.Verify G
      { R := r.BigR,
        S := r.partyIDs.foldl (fun acc j => G.add acc (r.SigmaShares j)) G.zero }
      r.PublicKey r.Message with
  | false =>
    rw [hv] at hout
    simp only [Bool.not_false] at hout
    cases hout
  | true =>
    rw [hv] at hout
    simp only [Bool.not_true] at hout
    rw [if_neg Bool.false_ne_true] at hout
    cases hout
    exact hv

/-- A degenerate curve instance used only as the witness input. -/
def unitCurve : CurveOps Unit Unit :=
  { zero := ()
    add := fun _ _ => ()
    isZero := fun _ => false
    invert := fun s => s
    fromHash := fun _ => ()
    actOnBase := fun _ => ()
    act := fun _ _ => ()
    addP := fun _ _ => ()
    xScalar := fun _ => ()
    equalP := fun _ _ => true }

def r5unit : Sround5 Unit Unit :=
  { partyIDs := ["alice", "bob"]
    SigmaShares := fun _ => ()
    BigR := ()
    PublicKey := ()
    Message := "hash" }

theorem c1_witness :
    Signature.Verify unitCurve { R := (), S := () } () "hash" = true :=
  c1_round5_output_verifies unitCurve r5unit { R := (), S := () } rfl

/-! ## C9: the Ethereum-compact signature encoding (src/unnamed/part_007,
src/unnamed/part_008)

Here the concrete secp256k1 marshalling matters, so scalars are naturals below
the group order and points are affine coordinate pairs (the dcrd Jacobian
value after `ToAffine`). -/

/-- The secp256k1 field prime. -/
def secpP : Nat :=
  115792089237316195423570985008687907853269984665640564039457584007908834671663

/-- The secp256k1 group order n. -/
def secpN : Nat :=
  115792089237316195423570985008687907852837564279074904382605163141518161494337

/-- Big-endian fixed-width byte encoding (`FieldVal.Bytes`/`ModNScalar.Bytes`
produce 32 bytes). -/
def bytesBE : Nat → Nat → List Nat
  | 0, _ => []
  | k + 1, m => bytesBE k (m / 256) ++ [m % 256]

/-- `Secp256k1Point` in affine form. -/
structure Secp256k1Point where
  x : Nat
  y : Nat
deriving Repr, DecidableEq

/-- `Secp256k1Point.MarshalBinary` (src/unnamed/part_008): one byte
`2 + IsOddBit(y)` followed by the 32 bytes of x. -/
def Secp256k1Point.MarshalBinary (p : Secp256k1Point) : List Nat :=
  (2 + p.y % 2) :: bytesBE 32 p.x

/-- `Secp256k1Scalar.MarshalBinary`: the 32 bytes of the scalar value. -/
def scalarMarshalBinary (s : Nat) : List Nat :=
  bytesBE 32 s

/-- `Secp256k1Scalar.IsOverHalfOrder` (dcrd `ModNScalar.IsOverHalfOrder`):
whether the value exceeds n >> 1. -/
def isOverHalfOrder (s : Nat) : Bool :=
  decide (secpN / 2 < s)

/-- `Secp256k1Scalar.Negate`: n − s mod n. -/
def negateScalar (s : Nat) : Nat :=
  (secpN - s) % secpN

/-- `ecdsa.Signature` over the concrete curve. -/
structure SigSecp where
  R : Secp256k1Point
  S : Nat
deriving Repr, DecidableEq

/-- `Signature.SigEthereum` (src/unnamed/part_007): negate S when it is over
half the order, then emit `R.MarshalBinary || S.MarshalBinary`. -/
def SigSecp.SigEthereum (sig : SigSecp) : List Nat :=
  let s := if isOverHalfOrder sig.S then negateScalar sig.S else sig.S
  sig.R.MarshalBinary ++ scalarMarshalBinary s

/-- A point with coordinates in range satisfying the curve equation
y² = x³ + 7 over the field. -/
def onCurve (p : Secp256k1Point) : Bool :=
  decide (p.x < secpP) && decide (p.y < secpP) &&
  decide (p.y * p.y % secpP = (p.x * p.x * p.x + 7) % secpP)

theorem bytesBE_length (k : Nat) : ∀ m, (bytesBE k m).length = k := by
  induction k with
  | zero => intro m; rfl
  | succ k ih => intro m; simp [bytesBE, ih]

/-- C9: for a signature with a valid curve point R and a nonzero scalar S,
`SigEthereum` produces exactly 65 bytes: a 33-byte compressed R whose leading
byte is 2 or 3, then 32 big-endian bytes of the non-high-order representative
of S (S itself, or n − S when S exceeds half the order); no trailing y-parity
byte follows. -/
theorem c9_sigEthereum_layout (sig : SigSecp)
    (hR : onCurve sig.R = true) (hS0 : sig.S ≠ 0) (hSn : sig.S < secpN) :
    sig.SigEthereum.length = 65 ∧
    sig.SigEthereum.take 33 = (2 + sig.R.y % 2) :: bytesBE 32 sig.R.x ∧
    (sig.SigEthereum.head? = some 2 ∨ sig.SigEthereum.head? = some 3) ∧
    sig.SigEthereum.drop 33 =
      bytesBE 32 (if secpN / 2 < sig.S then secpN - sig.S else sig.S) ∧
    isOverHalfOrder (if secpN / 2 < sig.S then secpN - sig.S else sig.S) = false := by
  have hlen33 : sig.R.MarshalBinary.length = 33 := by
    simp [Secp256k1Point.MarshalBinary, bytesBE_length]
  have hnorm : (if isOverHalfOrder sig.S then negateScalar sig.S else sig.S) =
      (if secpN / 2 < sig.S then secpN - sig.S else sig.S) := by
    unfold isOverHalfOrder negateScalar
    by_cases hh : secpN / 2 < sig.S
    · rw [if_pos (by simpa using hh), if_pos hh]
      exact Nat.mod_eq_of_lt (by omega)
    · rw [if_neg (by simpa using hh), if_neg hh]
  unfold SigSecp.SigEthereum
  rw [hnorm]
  refine ⟨?_, ?_, ?_, ?_, ?_⟩
  · simp [Secp256k1Point.MarshalBinary, scalarMarshalBinary, bytesBE_length]
  · rw [← hlen33, List.take_left]
    rfl
  · have h2 : sig.R.y % 2 = 0 ∨ sig.R.y % 2 = 1 := by omega
    unfold Secp256k1Point.MarshalBinary
    rcases h2 with h2 | h2 <;> rw [h2]
    · left; rfl
    · right; rfl
  · rw [← hlen33, List.drop_left]
    rfl
  · have hN : secpN =
        115792089237316195423570985008687907852837564279074904382605163141518161494337 := rfl
    unfold isOverHalfOrder
    by_cases hh : secpN / 2 < sig.S
    · rw [if_pos hh]
      simp only [decide_eq_false_iff_not, not_lt]
      omega
    · rw [if_neg hh]
      simp only [decide_eq_false_iff_not, not_lt]
      omega

/-- The secp256k1 base point, the witness input. -/
def basePoint : Secp256k1Point :=
  { x := 55066263022277343669578718895168534326250603453777594175500187360389116729240
    y := 32670510020758816978083085130507043184471273380659243275938904335757337482424 }

theorem c9_witness :
    (SigSecp.SigEthereum { R := basePoint, S := 1 }).length = 65 ∧
    (SigSecp.SigEthereum { R := basePoint, S := 1 }).take 33 =
      (2 + basePoint.y % 2) :: bytesBE 32 basePoint.x ∧
    ((SigSecp.SigEthereum { R := basePoint, S := 1 }).head? = some 2 ∨
     (SigSecp.SigEthereum { R := basePoint, S := 1 }).head? = some 3) ∧
    (SigSecp.SigEthereum { R := basePoint, S := 1 }).drop 33 =
      bytesBE 32 (if secpN / 2 < 1 then secpN - 1 else 1) ∧
    isOverHalfOrder (if secpN / 2 < 1 then secpN - 1 else 1) = false :=
  c9_sigEthereum_layout { R := basePoint, S := 1 } (by decide) (by decide) (by decide)

/-! ## C2: Config.DerivePath (src/protocols/cmp/config/config.go)

The parsing and control flow of `DerivePath` is in `src/`; the derivation it
delegates to (`Config.DeriveBIP32` → `bip32.DeriveScalar`, the latter not under
`src/`) is abstracted as a function parameter producing a `GoResult` — the
spec says unhardened derivation yields a new config and hardened indices fail
(the `DeriveBIP32` doc comment says i ≥ 2³¹ panics). -/

/-- Outcome of a Go computation that can also panic (out-of-range slice index,
hardened-index panic). -/
inductive GoResult (α : Type) where
  | ok (a : α)
  | error (e : String)
  | panicked
deriving Repr, DecidableEq

/-- Digit value accepted by Go's strconv (with lower-casing of letters). -/
def digitVal (c : Char) : Option Nat :=
  if '0' ≤ c ∧ c ≤ '9' then some (c.toNat - '0'.toNat)
  else if 'a' ≤ c ∧ c ≤ 'z' then some (c.toNat - 'a'.toNat + 10)
  else if 'A' ≤ c ∧ c ≤ 'Z' then some (c.toNat - 'A'.toNat + 10)
  else none

def parseDigitsAux (base : Nat) : List Char → Nat → Option Nat
  | [], acc => some acc
  | c :: rest, acc =>
    match digitVal c with
    | some d => if d < base then parseDigitsAux base rest (acc * base + d) else none
    | none => none

def parseDigits (base : Nat) : List Char → Option Nat
  | [] => none
  | cs => parseDigitsAux base cs 0

/-- Modelled from the spec: Go `strconv.ParseUint(s, 0, 32)` (standard library,
outside this repository).  Base 0 detects a `0x`/`0b`/`0o` prefix, treats a
remaining leading `0` as octal, and otherwise parses decimal; a syntax error
returns value 0, a range error returns 2^32 − 1; the boolean is `err == nil`. -/
def parseUint0_32 (s : String) : Nat × Bool :=
  match s.toList with
  | [] => (0, false)
  | '0' :: c :: rest =>
    let p : Nat × List Char :=
      if (c = 'x' ∨ c = 'X') ∧ rest ≠ [] then (16, rest)
      else if (c = 'b' ∨ c = 'B') ∧ rest ≠ [] then (2, rest)
      else if (c = 'o' ∨ c = 'O') ∧ rest ≠ [] then (8, rest)
      else (8, c :: rest)
    match parseDigits p.1 p.2 with
    | none => (0, false)
    | some v => if v ≤ 4294967295 then (v, true) else (4294967295, false)
  | cs =>
    match parseDigits 10 cs with
    | none => (0, false)
    | some v => if v ≤ 4294967295 then (v, true) else (4294967295, false)

/-- `strings.Split` with a one-character separator, over the character list. -/
def splitChars (sep : Char) : List Char → List (List Char)
  | [] => [[]]
  | c :: rest =>
    if c = sep then [] :: splitChars sep rest
    else
      match splitChars sep rest with
      | g :: gs => (c :: g) :: gs
      | [] => [[c]]

/-- `strings.Split(path, "/")`. -/
def goSplit (sep : Char) (s : String) : List String :=
  (splitChars sep s.toList).map List.asString

/-- `Config.DerivePath`.  `pathSlice[1]`, `[2]`, `[3]` are read — and panic on
a short path — before the length check; every `ParseUint` error is assigned to
`err` and never examined, so only the parsed values (0 on a syntax error)
survive.  `deriveBIP32` abstracts `Config.DeriveBIP32` (see the section
comment). -/
def Config.DerivePath {Cfg : Type} (deriveBIP32 : Cfg → Nat → GoResult Cfg)
    (c : Cfg) (path : String) : GoResult Cfg :=
  let pathSlice := goSplit '/' path
  match pathSlice[1]?, pathSlice[2]?, pathSlice[3]? with
  | some s1, some s2, some s3 =>
    let k1 := (parseUint0_32 s1).1
    let k2 := (parseUint0_32 s2).1
    let k3 := (parseUint0_32 s3).1
    if pathSlice.length ≠ 4 ∨ pathSlice[0]? ≠ some "m" then
      .error "Invalid derivation path"
    else
      match deriveBIP32 c k1 with
      | .ok c1 =>
        match deriveBIP32 c1 k2 with
        | .ok c2 =>
          match deriveBIP32 c2 k3 with
          | .ok c3 => .ok c3
          | .error e => .error e
          | .panicked => .panicked
        | .error e => .error e
        | .panicked => .panicked
      | .error e => .error e
      | .panicked => .panicked
  | _, _, _ => .panicked

/-- A derivation that succeeds on every unhardened index, as `DeriveBIP32`
does outside its negligible-probability failure cases. -/
def deriveOkUnit : Unit → Nat → GoResult Unit := fun _ _ => .ok ()

/-- C2: the claim (and the function's own comments) require `DerivePath` to
reject the hardened path (apostrophe notation) with a derivation-path error and to return errors on short
paths.  In the code every `ParseUint` error is discarded: `"0'"` parses as 0,
the hardened path derives `m/0/0/0` and returns a config with no error; and a
path with fewer than four components panics on the unchecked slice index
instead of returning an error. -/
theorem c2_derivePath_errors_discarded :
    Config.DerivePath deriveOkUnit () "m/0\u0027/0/0" = .ok () ∧
    (parseUint0_32 "0\u0027") = (0, false) ∧
    Config.DerivePath deriveOkUnit () "m/0/0" = .panicked := by
  refine ⟨?_, ?_, ?_⟩ <;> rfl

end MPS
